import Mathlib

/-!
Verification of the Liferay-URL-Extractor crawl engine against its
specification.  The Python sources under src/ are shallowly embedded as
executable Lean definitions: dictionaries become association lists or
records with optional fields, Python floats used as timestamps become
rationals, the asynchronous transport becomes a pure function over an
explicit trace of per-attempt outcomes, and the cooperative scheduler
becomes a sequential interleaving of the atomic sections of the code
(the dedup guard of get_layouts contains no await, so it is atomic
under the asyncio event loop).
-/

/-! ### Python string primitives

Helpers mirroring the exact Python string operations used by the code,
defined over the character list of a string so that their behaviour is
transparent. -/

/-- Python s.startswith with a one-character argument. -/
def pyStartsWithChar (c : Char) (s : String) : Bool :=
  match s.data with
  | [] => false
  | c0 :: _ => c0 = c

/-- Python s[1:]. -/
def pyDropFirst (s : String) : String := ⟨s.data.drop 1⟩

/-- Python s.endswith with a one-character argument: true iff the last
character of s is c. -/
def pyEndsWithChar (c : Char) (s : String) : Bool :=
  match s.data.getLast? with
  | some c0 => c0 = c
  | none => false

/-- Python s[:-1]. -/
def pyDropLast (s : String) : String := ⟨s.data.dropLast⟩

/-- Python s[:n] for n ≥ 0. -/
def pyTake (n : Nat) (s : String) : String := ⟨s.data.take n⟩

/-! ### Result cache (src/core/cache.py)

CacheManager stores, under string keys, entries holding a timestamp and
the fetched payload.  The shelve database is modeled as an association
list with overwriting insertion; timestamps (Python time.time floats)
are modeled as rationals. -/

/-- One persisted cache entry: the dictionary with keys time and content
written by CacheManager.get_or_fetch. -/
structure CacheEntry (α : Type) where
  time : ℚ
  content : α
deriving DecidableEq

/-- Lookup in the shelve database (Python: db[full_key] guarded by
full_key in db). -/
def dbGet {α : Type} (db : List (String × CacheEntry α)) (k : String) :
    Option (CacheEntry α) :=
  match db with
  | [] => none
  | (k0, e) :: rest => if k0 = k then some e else dbGet rest k

/-- Overwriting store into the shelve database (Python: db[full_key] = entry). -/
def dbSet {α : Type} (db : List (String × CacheEntry α)) (k : String)
    (e : CacheEntry α) : List (String × CacheEntry α) :=
  match db with
  | [] => [(k, e)]
  | (k0, e0) :: rest => if k0 = k then (k, e) :: rest else (k0, e0) :: dbSet rest k e

/-- CacheManager state: ttl is self.ttl in seconds (the constructor
multiplies the configured hours by 3600), prefixKey is self.key_ prefix,
db is the open shelve database. -/
structure CacheManager (α : Type) where
  ttl : ℤ
  prefixKey : String
  db : List (String × CacheEntry α)
deriving DecidableEq

/-- CacheManager.__init__ with a fresh (empty) database: self.ttl =
ttl * 3600 converts the configured hours to seconds. -/
def CacheManager.init (α : Type) (ttlHours : ℤ) (prefixKey : String) :
    CacheManager α :=
  ⟨ttlHours * 3600, prefixKey, []⟩

/-- CacheManager.is_valid: False when self.ttl ≤ 0 (cache disabled),
otherwise (time.time() - cache_time) < self.ttl.  The current clock
reading time.time() is the explicit argument now. -/
def CacheManager.is_valid {α : Type} (c : CacheManager α) (now cache_time : ℚ) :
    Bool :=
  if c.ttl ≤ 0 then false
  else decide (now - cache_time < (c.ttl : ℚ))

/-- CacheManager.get_or_fetch.  The asynchronous fetch function is
modeled by the value fetchVal it would return; the third component of
the result counts how many times the fetch function was invoked (0 or
1).  Control flow mirrors the source: when self.ttl > 0 and the
namespaced key is present and still valid, return the stored content
with the hit flag; otherwise invoke the fetch, store the result under
the key when self.ttl > 0, and return it with the miss flag. -/
def CacheManager.get_or_fetch {α : Type} (c : CacheManager α) (now : ℚ)
    (key : String) (fetchVal : α) : (α × Bool) × CacheManager α × Nat :=
  let full_key := c.prefixKey ++ "_" ++ key
  let cached := if 0 < c.ttl then dbGet c.db full_key else none
  match cached with
  | some entry =>
    if c.is_valid now entry.time then ((entry.content, true), c, 0)
    else
      let data := fetchVal
      let db1 := if 0 < c.ttl then dbSet c.db full_key ⟨now, data⟩ else c.db
      ((data, false), ⟨c.ttl, c.prefixKey, db1⟩, 1)
  | none =>
    let data := fetchVal
    let db1 := if 0 < c.ttl then dbSet c.db full_key ⟨now, data⟩ else c.db
    ((data, false), ⟨c.ttl, c.prefixKey, db1⟩, 1)

/-! ### HTTP transport with retry (src/core/session.py)

SessionManager.request_with_retry loops over attempts 0 .. max_retries-1.
Each attempt is modeled by its externally observable outcome: an HTTP
response with a status, body text and parsed JSON value, a connection or
timeout error (aiohttp.ClientError / asyncio.TimeoutError), or any other
unexpected exception.  The loop is embedded with explicit fuel equal to
the number of remaining iterations; falling off the loop end (only
possible when max_retries = 0) is the Python implicit None return. -/

/-- Observable outcome of one attempt inside request_with_retry. -/
inductive Attempt (α : Type) where
  | http (status : Nat) (body : String) (val : α)
  | connError
  | otherError
deriving DecidableEq

/-- What request_with_retry hands back to its caller: the parsed JSON
body, the empty-list failure value, or the Python implicit None. -/
inductive RetryResult (α : Type) where
  | success (val : α)
  | emptyResult
  | noReturn
deriving DecidableEq

/-- Observable trace of one request_with_retry call: its return value,
the backoff sleeps in seconds in order, the truncated body logged on a
final HTTP status failure, and the number of attempts performed. -/
structure RetryTrace (α : Type) where
  result : RetryResult α
  sleeps : List Nat
  errorLog : Option String
  attempts : Nat
deriving DecidableEq

/-- The retry loop of request_with_retry: attempt is the loop index,
fuel the number of iterations left (the caller passes fuel =
max_retries - attempt).  Status 200/201 returns the parsed value; other
statuses retry, logging body[0:200] and returning the empty result on
the last attempt; connection or timeout errors sleep 2 ^ attempt seconds
and retry, returning the empty result on the last attempt without
sleeping; any other exception returns the empty result at once. -/
def retryLoop {α : Type} (outcomes : Nat → Attempt α) (max_retries : Nat) :
    Nat → Nat → RetryTrace α
  | _, 0 => ⟨.noReturn, [], none, 0⟩
  | attempt, fuel + 1 =>
    match outcomes attempt with
    | .http status body val =>
      if status = 200 ∨ status = 201 then ⟨.success val, [], none, 1⟩
      else if attempt = max_retries - 1 then
        ⟨.emptyResult, [], some (pyTake 200 body), 1⟩
      else
        let t := retryLoop outcomes max_retries (attempt + 1) fuel
        ⟨t.result, t.sleeps, t.errorLog, t.attempts + 1⟩
    | .connError =>
      if attempt = max_retries - 1 then ⟨.emptyResult, [], none, 1⟩
      else
        let t := retryLoop outcomes max_retries (attempt + 1) fuel
        ⟨t.result, 2 ^ attempt :: t.sleeps, t.errorLog, t.attempts + 1⟩
    | .otherError => ⟨.emptyResult, [], none, 1⟩

/-- SessionManager.request_with_retry (the Python default max_retries
is 3). -/
def request_with_retry {α : Type} (outcomes : Nat → Attempt α)
    (max_retries : Nat) : RetryTrace α :=
  retryLoop outcomes max_retries 0 max_retries

/-- The tail of the loop starting at a given attempt index. -/
def retryFrom {α : Type} (outcomes : Nat → Attempt α) (max_retries a : Nat) :
    RetryTrace α :=
  retryLoop outcomes max_retries a (max_retries - a)

/-! ### Model of urllib.parse.urljoin

Page.from_json builds the absolute URL with urllib.parse.urljoin.  The
following definitions embed the CPython 3.x implementation of urlsplit,
urlparse, urlunsplit, urlunparse and urljoin (including RFC 3986 dot
segment resolution and the interior empty-segment filtering of relative
references); they were validated against the reference implementation on
the inputs the theorems below use. -/

/-- Characters allowed after the first character of a URL scheme. -/
def schemeChar (c : Char) : Bool :=
  c.isAlpha || c.isDigit || c = '+' || c = '-' || c = '.'

/-- The components returned by urlparse: scheme, netloc, path, params,
query, fragment (urlsplit leaves params empty). -/
structure UrlParts where
  scheme : String
  netloc : String
  path : String
  params : String
  query : String
  fragment : String
deriving DecidableEq

/-- Split the network location at the first of /, ? or # (CPython
helper used by urlsplit). -/
def splitNetloc (l : List Char) : List Char × List Char :=
  match l.findIdx? (fun c => c = '/' || c = '?' || c = '#') with
  | some d => (l.take d, l.drop d)
  | none => (l, [])

/-- urllib.parse.urlsplit with a default scheme and allow_fragments
left at True: detect a scheme (lowercased) before a colon, a netloc
after a leading double slash, then split off fragment and query. -/
def urlsplit (url : String) (scheme : String) : UrlParts :=
  let u := url.data
  let schemeSplit :=
    match u.findIdx? (fun c => c = ':') with
    | some i =>
      if 0 < i ∧ (u.headD ' ').isAlpha ∧ (u.take i).all schemeChar then
        (String.mk ((u.take i).map Char.toLower), u.drop (i + 1))
      else (scheme, u)
    | none => (scheme, u)
  let sch := schemeSplit.1
  let rest := schemeSplit.2
  let netSplit :=
    if rest.take 2 = ['/', '/'] then splitNetloc (rest.drop 2) else ([], rest)
  let fragSplit :=
    match netSplit.2.findIdx? (fun c => c = '#') with
    | some i => (netSplit.2.take i, netSplit.2.drop (i + 1))
    | none => (netSplit.2, [])
  let querySplit :=
    match fragSplit.1.findIdx? (fun c => c = '?') with
    | some i => (fragSplit.1.take i, fragSplit.1.drop (i + 1))
    | none => (fragSplit.1, [])
  ⟨sch, ⟨netSplit.1⟩, ⟨querySplit.1⟩, "", ⟨querySplit.2⟩, ⟨fragSplit.2⟩⟩

/-- Schemes for which urljoin resolves relative references. -/
def uses_relative : List String :=
  ["", "ftp", "http", "gopher", "nntp", "imap", "wais", "file", "https",
   "shttp", "mms", "prospero", "rtsp", "rtspu", "sftp", "svn", "svn+ssh", "ws", "wss"]

/-- Schemes that carry a network location. -/
def uses_netloc : List String :=
  ["", "ftp", "http", "gopher", "nntp", "telnet", "imap", "wais", "file",
   "mms", "https", "shttp", "snews", "prospero", "rtsp", "rtspu", "rsync",
   "svn", "svn+ssh", "sftp", "nfs", "git", "git+ssh", "ws", "wss"]

/-- Schemes whose last path segment may carry semicolon params. -/
def uses_params : List String :=
  ["", "ftp", "hdl", "prospero", "http", "imap", "https", "shttp", "rtsp",
   "rtspu", "sip", "sips", "mms", "sftp", "tel"]

/-- Python str.find with a start position. -/
def findIdxFrom (p : Char → Bool) (l : List Char) (start : Nat) : Option Nat :=
  match (l.drop start).findIdx? p with
  | some j => some (start + j)
  | none => none

/-- Python str.rfind: index of the last character satisfying p. -/
def rfindIdx (p : Char → Bool) (l : List Char) : Option Nat :=
  match l.reverse.findIdx? p with
  | some j => some (l.length - 1 - j)
  | none => none

/-- urllib.parse _splitparams: split the params off the last path
segment at the first semicolon after the last slash. -/
def splitparams (l : List Char) : List Char × List Char :=
  match rfindIdx (fun c => c = '/') l with
  | some r =>
    match findIdxFrom (fun c => c = ';') l r with
    | some i => (l.take i, l.drop (i + 1))
    | none => (l, [])
  | none =>
    match l.findIdx? (fun c => c = ';') with
    | some i => (l.take i, l.drop (i + 1))
    | none => (l, [])

/-- urllib.parse.urlparse: urlsplit plus params extraction. -/
def urlparse (url : String) (scheme : String) : UrlParts :=
  let s := urlsplit url scheme
  if s.scheme ∈ uses_params ∧ ';' ∈ s.path.data then
    let pr := splitparams s.path.data
    ⟨s.scheme, s.netloc, ⟨pr.1⟩, ⟨pr.2⟩, s.query, s.fragment⟩
  else s

/-- urllib.parse.urlunsplit. -/
def urlunsplit (p : UrlParts) : String :=
  let url := p.path.data
  let url :=
    if p.netloc ≠ "" ∨ (url ≠ [] ∧ url.take 2 = ['/', '/']) then
      let url1 := if url ≠ [] ∧ url.headD ' ' ≠ '/' then '/' :: url else url
      '/' :: '/' :: (p.netloc.data ++ url1)
    else url
  let url := if p.scheme ≠ "" then p.scheme.data ++ ':' :: url else url
  let url := if p.query ≠ "" then url ++ '?' :: p.query.data else url
  let url := if p.fragment ≠ "" then url ++ '#' :: p.fragment.data else url
  ⟨url⟩

/-- urllib.parse.urlunparse. -/
def urlunparse (p : UrlParts) : String :=
  let pp := if p.params ≠ "" then p.path.data ++ ';' :: p.params.data else p.path.data
  urlunsplit ⟨p.scheme, p.netloc, ⟨pp⟩, "", p.query, p.fragment⟩

/-- Python str.split with a one-character separator (the empty string
splits to one empty group). -/
def pySplitChar (sep : Char) : List Char → List (List Char)
  | [] => [[]]
  | c :: rest =>
    let r := pySplitChar sep rest
    if c = sep then [] :: r
    else
      match r with
      | [] => [[c]]
      | g :: gs => (c :: g) :: gs

/-- The segments[1:-1] = filter(None, segments[1:-1]) step of urljoin:
drop empty interior segments, keeping the first and last. -/
def filterInterior (l : List (List Char)) : List (List Char) :=
  match l with
  | [] => []
  | a :: rest =>
    match rest.getLast? with
    | none => [a]
    | some lst => a :: (rest.dropLast.filter (fun g => !g.isEmpty)) ++ [lst]

/-- Dot segment resolution of urljoin: double dots pop the accumulator
(ignoring underflow), single dots are skipped. -/
def resolveSegs : List (List Char) → List (List Char) → List (List Char)
  | [], acc => acc
  | seg :: rest, acc =>
    if seg = ['.', '.'] then resolveSegs rest acc.dropLast
    else if seg = ['.'] then resolveSegs rest acc
    else resolveSegs rest (acc ++ [seg])

/-- urllib.parse.urljoin. -/
def urljoin (base url : String) : String :=
  if base = "" then url
  else if url = "" then base
  else
    let b := urlparse base ""
    let r := urlparse url b.scheme
    if r.scheme ≠ b.scheme ∨ r.scheme ∉ uses_relative then url
    else if r.scheme ∈ uses_netloc ∧ r.netloc ≠ "" then urlunparse r
    else
      let netloc := if r.scheme ∈ uses_netloc then b.netloc else r.netloc
      if r.path = "" ∧ r.params = "" then
        let query := if r.query = "" then b.query else r.query
        urlunparse ⟨r.scheme, netloc, b.path, b.params, query, r.fragment⟩
      else
        let base_parts0 := pySplitChar '/' b.path.data
        let base_parts :=
          if base_parts0.getLast? = some [] then base_parts0 else base_parts0.dropLast
        let segments :=
          if (match r.path.data with | '/' :: _ => true | _ => false) then
            pySplitChar '/' r.path.data
          else filterInterior (base_parts ++ pySplitChar '/' r.path.data)
        let resolved0 := resolveSegs segments []
        let resolved :=
          if segments.getLast? = some ['.'] ∨ segments.getLast? = some ['.', '.'] then
            resolved0 ++ [([] : List Char)]
          else resolved0
        let joined := List.intercalate ['/'] resolved
        let path := if joined.isEmpty then ['/'] else joined
        urlunparse ⟨r.scheme, netloc, ⟨path⟩, r.params, r.query, r.fragment⟩

/-! ### Page records (src/models/page.py) -/

/-- A layout entry of the API response, as the JSON dictionary consumed
by Page.from_json: every field may be absent. -/
structure Layout where
  layoutId : Option Int
  friendlyURL : Option String
  name : Option String
  parentLayoutId : Option Int
deriving DecidableEq

/-- The Page dataclass. -/
structure Page where
  id : Int
  path : String
  url : String
  title : String
  parent_id : Int
  «private» : Bool
deriving DecidableEq

/-- The friendly URL with one leading slash removed, exactly as in
Page.from_json (only the first character is dropped, and only when it
is a slash). -/
def stripLeadSlash (s : String) : String :=
  if pyStartsWithChar '/' s then pyDropFirst s else s

/-- full_path of Page.from_json: the stripped friendly URL appended to
the parent path with a slash when the parent path is nonempty. -/
def fullPath (parent_url friendly_raw : String) : String :=
  let friendly_url := stripLeadSlash friendly_raw
  if parent_url = "" then friendly_url else parent_url ++ "/" ++ friendly_url

/-- One trailing slash removed, exactly as in Page.from_json and the
TXT exporter (a single character is dropped when the string ends
in a slash). -/
def stripTrailSlash (s : String) : String :=
  if pyEndsWithChar '/' s then pyDropLast s else s

/-- Page.from_json: defaults for absent dictionary fields, path joined
from the parent path, URL joined onto the base and stripped of one
trailing slash. -/
def Page.from_json (layout : Layout) (parent_url : String) (is_private : Bool)
    (base_url : String) : Page :=
  let layout_id := layout.layoutId.getD 0
  let friendly_url := layout.friendlyURL.getD ""
  let layout_name := layout.name.getD ""
  let full_path := fullPath parent_url friendly_url
  let complete_url := stripTrailSlash (urljoin base_url full_path)
  ⟨layout_id, full_path, complete_url, layout_name,
   layout.parentLayoutId.getD 0, is_private⟩

/-- Last two characters both slashes. -/
def endsWithTwoSlash (s : String) : Bool :=
  match s.data.getLast?, s.data.dropLast.getLast? with
  | some c1, some c2 => c1 = '/' && c2 = '/'
  | _, _ => false

/-! ### Python string ordering

Python compares strings lexicographically by Unicode code point; sorted
produces the nondecreasing stable arrangement.  The comparator is
embedded below over character lists; since the order is antisymmetric,
any stable nondecreasing arrangement coincides with the one insertion
sort produces. -/

/-- Python string comparison, lexicographic on code points. -/
def pyLeList : List Char → List Char → Bool
  | [], _ => true
  | _ :: _, [] => false
  | a :: as, b :: bs =>
    if a.toNat < b.toNat then true
    else if b.toNat < a.toNat then false
    else pyLeList as bs

/-- Python string comparison lifted to strings. -/
def pyStrLe (a b : String) : Bool := pyLeList a.data b.data

/-- The proposition a ≤ b in the Python string order. -/
def PyLe (a b : String) : Prop := pyStrLe a b = true

instance : DecidableRel PyLe := fun _ _ => inferInstanceAs (Decidable (_ = true))

instance : IsTrans String PyLe := by
  constructor
  intro a b c hab hbc
  unfold PyLe pyStrLe at hab hbc ⊢
  have hiff : ∀ (x y : Char) (xs ys : List Char),
      pyLeList (x :: xs) (y :: ys) = true ↔
        (x.toNat < y.toNat ∨ (x.toNat = y.toNat ∧ pyLeList xs ys = true)) := by
    intro x y xs ys
    by_cases h1 : x.toNat < y.toNat
    · simp [pyLeList, h1]
    · by_cases h2 : y.toNat < x.toNat
      · simp [pyLeList, h1, h2]
        omega
      · have h3 : x.toNat = y.toNat := by omega
        simp [pyLeList, h1, h2, h3]
  have key : ∀ la lb lc : List Char, pyLeList la lb = true →
      pyLeList lb lc = true → pyLeList la lc = true := by
    intro la
    induction la with
    | nil => intro lb lc _ _; rfl
    | cons x xs ih =>
      intro lb lc h1 h2
      cases lb with
      | nil => simp [pyLeList] at h1
      | cons y ys =>
        cases lc with
        | nil => simp [pyLeList] at h2
        | cons z zs =>
          rw [hiff] at h1 h2 ⊢
          rcases h1 with h1 | ⟨h1, h1r⟩
          · rcases h2 with h2 | ⟨h2, _⟩
            · left; omega
            · left; omega
          · rcases h2 with h2 | ⟨h2, h2r⟩
            · left; omega
            · right
              exact ⟨by omega, ih ys zs h1r h2r⟩
  exact key a.data b.data c.data hab hbc

instance : IsAntisymm String PyLe := by
  constructor
  intro a b hab hba
  unfold PyLe pyStrLe at hab hba
  have hiff : ∀ (x y : Char) (xs ys : List Char),
      pyLeList (x :: xs) (y :: ys) = true ↔
        (x.toNat < y.toNat ∨ (x.toNat = y.toNat ∧ pyLeList xs ys = true)) := by
    intro x y xs ys
    by_cases h1 : x.toNat < y.toNat
    · simp [pyLeList, h1]
    · by_cases h2 : y.toNat < x.toNat
      · simp [pyLeList, h1, h2]
        omega
      · have h3 : x.toNat = y.toNat := by omega
        simp [pyLeList, h1, h2, h3]
  have key : ∀ la lb : List Char, pyLeList la lb = true →
      pyLeList lb la = true → la = lb := by
    intro la
    induction la with
    | nil =>
      intro lb _ h2
      cases lb with
      | nil => rfl
      | cons y ys => simp [pyLeList] at h2
    | cons x xs ih =>
      intro lb h1 h2
      cases lb with
      | nil => simp [pyLeList] at h1
      | cons y ys =>
        rw [hiff] at h1 h2
        rcases h1 with h1 | ⟨h1, h1r⟩
        · rcases h2 with h2 | ⟨h2, _⟩ <;> omega
        · rcases h2 with h2 | ⟨h2, h2r⟩
          · omega
          · have hc : x = y := Char.eq_of_val_eq (UInt32.ext h1)
            rw [hc, ih ys h1r h2r]
  have h := key a.data b.data hab hba
  cases a; cases b
  exact congrArg String.mk h

instance : IsTotal String PyLe := by
  constructor
  intro a b
  unfold PyLe pyStrLe
  have key : ∀ la lb : List Char,
      pyLeList la lb = true ∨ pyLeList lb la = true := by
    intro la
    induction la with
    | nil => intro lb; left; rfl
    | cons x xs ih =>
      intro lb
      cases lb with
      | nil => right; rfl
      | cons y ys =>
        rcases Nat.lt_trichotomy x.toNat y.toNat with h | h | h
        · left
          simp [pyLeList, h]
        · have h2 : ¬ x.toNat < y.toNat := by omega
          have h3 : ¬ y.toNat < x.toNat := by omega
          rcases ih ys with hx | hx
          · left
            simp [pyLeList, h2, h3, hx]
          · right
            simp [pyLeList, h2, h3, hx]
        · right
          simp [pyLeList, h]
  exact key a.data b.data

/-! ### TXT exporter (src/exporters/txt_exporter.py) -/

/-- The lines TXTExporter.export writes: the record URLs arranged by
sorted(...) — modeled by insertion sort under the Python string order,
which gives the identical list — then each line gets one trailing slash
stripped at write time, one URL per line. -/
def txtExportLines (pages : List Page) : List String :=
  let urls := List.insertionSort PyLe (pages.map Page.url)
  urls.map stripTrailSlash

/-! ### Checkpoint persistence (src/utils/helpers.py)

save_state writes the four-field state dictionary as JSON; load_state
parses it back.  json.dump followed by json.load is the identity on the
JSON-representable values saved here, so the file layer is modeled as
the identity on the saved value.  list(processed_layouts) enumerates
the set in an arbitrary order; the model enumerates it in sorted order
(any enumeration yields the same set on conversion back). -/

/-- The stats dictionary of the extractor. -/
structure Stats where
  layouts_processed : Nat
  requests_made : Nat
  request_errors : Nat
  retries : Nat
  cache_hits : Nat
  cache_misses : Nat
  start_time : Option ℚ
  end_time : Option ℚ
deriving DecidableEq

/-- The state dictionary save_state persists, over an abstract
site-tree type τ. -/
structure SavedState (τ : Type) where
  all_pages : List Page
  processed_layouts : List String
  stats : Stats
  site_structure : τ

/-- save_state: the visited set is converted to a list
(list(processed_layouts)); the other three fields are stored as they
are. -/
def save_state (τ : Type) (all_pages : List Page) (processed_layouts : Finset String)
    (stats : Stats) (site_structure : τ) : SavedState τ :=
  ⟨all_pages, processed_layouts.sort PyLe, stats, site_structure⟩

/-- load_state: parse the checkpoint file written by save_state (the
JSON round trip is the identity on the saved value; None is returned
only for a missing or unreadable file). -/
def load_state (τ : Type) (saved : SavedState τ) : Option (SavedState τ) :=
  some saved

/-- convert_processed_layouts: set(layouts_list). -/
def convert_processed_layouts (layouts_list : List String) : Finset String :=
  layouts_list.toFinset

/-! ### Recursive traversal engine (src/core/extractor.py)

get_layouts is embedded as an atomic state transition: its dedup guard
(membership test plus insertion) contains no await, so under the
cooperative single-threaded scheduler no other task can run between the
check and the insert; a run of concurrently scheduled expansion tasks is
therefore a sequence of these transitions.  The transport outcomes a
call would observe and the clock reading are passed explicitly. -/

/-- The extractor configuration get_layouts reads. -/
structure Config where
  liferay_url : String
  group_id : String
deriving DecidableEq

/-- Python str of a bool (True / False). -/
def pyBoolStr (b : Bool) : String := if b then "True" else "False"

/-- layout_key of get_layouts: the traversal key
(parent-layout-id, privacy-flag). -/
def layoutKey (parent_layout_id : Int) (is_private : Bool) : String :=
  toString parent_layout_id ++ "-" ++ pyBoolStr is_private

/-- cache_key of get_layouts. -/
def layoutCacheKey (cfg : Config) (parent_layout_id : Int) (is_private : Bool) :
    String :=
  "layout_" ++ cfg.group_id ++ "_" ++ toString parent_layout_id ++ "_" ++
    pyBoolStr is_private

/-- The mutable extractor state get_layouts touches, over an abstract
site-tree type τ (get_layouts reads and writes neither the tree nor the
page list). -/
structure ExtractorState (τ : Type) where
  processed_layouts : Finset String
  cache : CacheManager (Option (List Layout))
  all_pages : List Page
  site_structure : τ
  stats : Stats
deriving DecidableEq

/-- What request_with_retry hands to the fetch_layouts closure: the
parsed JSON on success, the empty list after exhausted retries, Python
None only when the loop never ran. -/
def retryValue : RetryResult (List Layout) → Option (List Layout)
  | .success v => some v
  | .emptyResult => some []
  | .noReturn => none

/-- Effects observable from one get_layouts call: how many cache
lookups and transport requests it performed. -/
structure GLEffects where
  cacheLookups : Nat
  transportRequests : Nat
deriving DecidableEq

/-- LiferayUrlExtractor.get_layouts: return the empty list at once when
the traversal key is already in the visited set; otherwise insert the
key, then consult the cache, which either serves the stored value (hit)
or invokes fetch_layouts (miss) — the closure increments requests_made
and performs the transport request with up to 3 attempts — and finally
record the hit or miss in the statistics. -/
def get_layouts (τ : Type) (cfg : Config) (s : ExtractorState τ)
    (parent_layout_id : Int) (is_private : Bool) (now : ℚ)
    (outcomes : Nat → Attempt (List Layout)) :
    Option (List Layout) × ExtractorState τ × GLEffects :=
  let layout_key := layoutKey parent_layout_id is_private
  if layout_key ∈ s.processed_layouts then (some [], s, ⟨0, 0⟩)
  else
    let processed1 := insert layout_key s.processed_layouts
    let cache_key := layoutCacheKey cfg parent_layout_id is_private
    let fetched := retryValue (request_with_retry outcomes 3).result
    let r := s.cache.get_or_fetch now cache_key fetched
    let nFetch := r.2.2
    let st := s.stats
    let stats1 : Stats :=
      ⟨st.layouts_processed, st.requests_made + nFetch, st.request_errors,
       st.retries, st.cache_hits, st.cache_misses, st.start_time, st.end_time⟩
    let stats2 : Stats :=
      if r.1.2 then
        ⟨stats1.layouts_processed, stats1.requests_made, stats1.request_errors,
         stats1.retries, stats1.cache_hits + 1, stats1.cache_misses,
         stats1.start_time, stats1.end_time⟩
      else
        ⟨stats1.layouts_processed, stats1.requests_made, stats1.request_errors,
         stats1.retries, stats1.cache_hits, stats1.cache_misses + 1,
         stats1.start_time, stats1.end_time⟩
    (r.1.1, ⟨processed1, r.2.1, s.all_pages, s.site_structure, stats2⟩, ⟨1, nFetch⟩)

/-- One get_layouts invocation of a run: its arguments together with
the clock reading and transport outcomes it would observe. -/
structure CallSpec where
  parent_layout_id : Int
  is_private : Bool
  now : ℚ
  outcomes : Nat → Attempt (List Layout)

/-- Sequential execution of a list of get_layouts calls; returns the
final state and, for each call in order, its traversal key paired with
the number of transport requests the call issued. -/
def runCalls (τ : Type) (cfg : Config) (s : ExtractorState τ) :
    List CallSpec → ExtractorState τ × List (String × Nat)
  | [] => (s, [])
  | c :: rest =>
    let r := get_layouts τ cfg s c.parent_layout_id c.is_private c.now c.outcomes
    let rr := runCalls τ cfg r.2.1 rest
    (rr.1, (layoutKey c.parent_layout_id c.is_private, r.2.2.transportRequests) :: rr.2)

/-- Transport requests issued for traversal key k across a run. -/
def transportFor (k : String) (l : List (String × Nat)) : Nat :=
  ((l.filter (fun e => e.1 = k)).map (fun e => e.2)).sum

/-- Fresh statistics dictionary. -/
def stats0 : Stats := ⟨0, 0, 0, 0, 0, 0, none, none⟩

/-- A state whose visited set already holds the traversal key 7-True. -/
def c1State : ExtractorState Unit :=
  ⟨insert "7-True" ∅, CacheManager.init (Option (List Layout)) 24 "k", [], (), stats0⟩

/-- A state whose visited set already holds the traversal key 0-False. -/
def c9State : ExtractorState Unit :=
  ⟨insert "0-False" ∅, CacheManager.init (Option (List Layout)) 0 "k", [], (), stats0⟩

/-- The transport outcome trace of C3: two connection failures then an
HTTP 200 carrying one layout. -/
def c3Outcomes : Nat → Attempt (List Layout) := fun n =>
  if n = 0 then Attempt.connError
  else if n = 1 then Attempt.connError
  else Attempt.http 200 "" [⟨some 5, some "/x", some "X", some 0⟩]

/-- A fresh extractor state with an empty cache. -/
def c3State : ExtractorState Unit :=
  ⟨∅, CacheManager.init (Option (List Layout)) 24 "k", [], (), stats0⟩

/-! ### Theorems

The claims of the specification, each preceded by supporting lemmas,
settled against the embedding above. -/

/-- Looking a key up right after storing it finds the stored entry. -/
theorem dbGet_dbSet_self {α : Type} (db : List (String × CacheEntry α))
    (k : String) (e : CacheEntry α) : dbGet (dbSet db k e) k = some e := by
  induction db with
  | nil => simp [dbGet, dbSet]
  | cons hd tl ih =>
    obtain ⟨k0, e0⟩ := hd
    by_cases h : k0 = k
    · simp [dbGet, dbSet, h]
    · simp [dbGet, dbSet, h, ih]

/-- get_or_fetch invokes the fetch function at most once per call. -/
theorem get_or_fetch_calls_le_one {α : Type} (c : CacheManager α) (now : ℚ)
    (key : String) (v : α) : (c.get_or_fetch now key v).2.2 ≤ 1 := by
  unfold CacheManager.get_or_fetch
  cases h : (if 0 < c.ttl then dbGet c.db (c.prefixKey ++ "_" ++ key) else none) with
  | none => simp [h]
  | some entry =>
    by_cases hv : c.is_valid now entry.time <;> simp [h, hv]

/-- C5: for every cache entry stored at time T under a configured
time-to-live ttl > 0 (in seconds, as held in self.ttl), the validity
check reports the entry invalid when queried at any time ≥ T + ttl and
valid when queried at any time < T + ttl. -/
theorem cache_expiry {α : Type} (c : CacheManager α) (hpos : 0 < c.ttl)
    (T q : ℚ) :
    (T + (c.ttl : ℚ) ≤ q → c.is_valid q T = false) ∧
    (q < T + (c.ttl : ℚ) → c.is_valid q T = true) := by
  constructor
  · intro h
    unfold CacheManager.is_valid
    have h1 : ¬ c.ttl ≤ 0 := by omega
    simp only [h1, if_false, decide_eq_false_iff_not, not_lt]
    linarith
  · intro h
    unfold CacheManager.is_valid
    have h1 : ¬ c.ttl ≤ 0 := by omega
    simp only [h1, if_false, decide_eq_true_eq]
    linarith

/-- C5 witness: instantiated at a cache configured for 1 hour (ttl =
3600 seconds), an entry stored at time 0 is invalid when queried at
3600 and valid when queried at 3599. -/
theorem cache_expiry_witness :
    (CacheManager.init Unit 1 "c").is_valid 3600 0 = false ∧
    (CacheManager.init Unit 1 "c").is_valid 3599 0 = true :=
  ⟨(cache_expiry (CacheManager.init Unit 1 "c") (by decide) 0 3600).1 (by norm_num [CacheManager.init]),
   (cache_expiry (CacheManager.init Unit 1 "c") (by decide) 0 3599).2 (by norm_num [CacheManager.init])⟩

/-- C4: with time-to-live > 0, two calls of get_or_fetch on the same key
within the time-to-live window invoke the fetch function exactly once in
total: the first call (key not yet stored) invokes it and reports a
miss, the second call returns the value stored by the first with the hit
flag and zero fetch invocations.  With time-to-live = 0 every call
invokes the fetch, reports a miss, and leaves the store untouched. -/
theorem cache_round_trip {α : Type} (c : CacheManager α) (hpos : 0 < c.ttl)
    (k : String) (t1 t2 : ℚ)
    (hfresh : dbGet c.db (c.prefixKey ++ "_" ++ k) = none)
    (hwin : t2 - t1 < (c.ttl : ℚ)) (v1 v2 : α) :
    (c.get_or_fetch t1 k v1 =
      ((v1, false), ⟨c.ttl, c.prefixKey, dbSet c.db (c.prefixKey ++ "_" ++ k) ⟨t1, v1⟩⟩, 1)) ∧
    ((c.get_or_fetch t1 k v1).2.1.get_or_fetch t2 k v2 =
      ((v1, true), (c.get_or_fetch t1 k v1).2.1, 0)) ∧
    (∀ (c0 : CacheManager α) (t : ℚ) (key : String) (v : α), c0.ttl = 0 →
      c0.get_or_fetch t key v = ((v, false), c0, 1)) := by
  have hns : ¬ c.ttl ≤ 0 := by omega
  refine ⟨?_, ?_, ?_⟩
  · unfold CacheManager.get_or_fetch
    simp [hpos, hfresh]
  · unfold CacheManager.get_or_fetch
    simp only [hpos, if_true, hfresh]
    simp only [dbGet_dbSet_self]
    have hv : (CacheManager.is_valid
        (⟨c.ttl, c.prefixKey, dbSet c.db (c.prefixKey ++ "_" ++ k) ⟨t1, v1⟩⟩ : CacheManager α)
        t2 t1) = true := by
      unfold CacheManager.is_valid
      simp only [hns, if_false, decide_eq_true_eq]
      exact hwin
    simp [hv]
  · intro c0 t key v h0
    obtain ⟨tt, pk, db0⟩ := c0
    simp only [CacheManager.ttl] at h0
    subst h0
    unfold CacheManager.get_or_fetch
    simp

/-- C4 witness: a fresh cache with a 24 hour time-to-live fetched twice
at times 0 and 10 serves the second call from the store, and a
zero-time-to-live cache fetches every time without writing. -/
theorem cache_round_trip_witness :
    ((CacheManager.init Nat 24 "p").get_or_fetch 0 "k" 7 =
      ((7, false), ⟨86400, "p", [("p_k", ⟨0, 7⟩)]⟩, 1)) ∧
    (((CacheManager.init Nat 24 "p").get_or_fetch 0 "k" 7).2.1.get_or_fetch 10 "k" 8 =
      ((7, true), ((CacheManager.init Nat 24 "p").get_or_fetch 0 "k" 7).2.1, 0)) ∧
    ((CacheManager.init Nat 0 "p").get_or_fetch 5 "k" 9 =
      ((9, false), CacheManager.init Nat 0 "p", 1)) := by
  have h := cache_round_trip (CacheManager.init Nat 24 "p") (by decide) "k" 0 10
    (by decide) (by norm_num [CacheManager.init]) 7 8
  exact ⟨h.1.trans (by decide), h.2.1,
    h.2.2 (CacheManager.init Nat 0 "p") 5 "k" 9 (by decide)⟩

theorem retryFrom_zero {α : Type} (o : Nat → Attempt α) (n : Nat) :
    retryFrom o n 0 = request_with_retry o n := by
  unfold retryFrom request_with_retry
  simp

theorem retryFrom_succ_fuel {α : Type} (o : Nat → Attempt α) (n a : Nat)
    (ha : a < n) : retryFrom o n a = retryLoop o n a ((n - (a + 1)) + 1) := by
  unfold retryFrom
  congr 1
  omega

/-- With at least one iteration of fuel the loop always returns a value:
it never falls off the end. -/
theorem retryLoop_ne_noReturn {α : Type} (o : Nat → Attempt α) (n : Nat) :
    ∀ fuel a, 0 < fuel → a + fuel = n →
      (retryLoop o n a fuel).result ≠ RetryResult.noReturn := by
  intro fuel
  induction fuel with
  | zero => intro a h; omega
  | succ f ih =>
    intro a _ hsum
    cases ho : o a with
    | http s b v =>
      by_cases hs : s = 200 ∨ s = 201
      · simp [retryLoop, ho, hs]
      · by_cases hl : a = n - 1
        · subst hl
          simp [retryLoop, ho, hs]
        · have hf : 0 < f := by omega
          have hr := ih (a + 1) hf (by omega)
          simp [retryLoop, ho, hs, hl]
          exact hr
    | connError =>
      by_cases hl : a = n - 1
      · subst hl
        simp [retryLoop, ho]
      · have hf : 0 < f := by omega
        have hr := ih (a + 1) hf (by omega)
        simp [retryLoop, ho, hl]
        exact hr
    | otherError => simp [retryLoop, ho]

/-- When every attempt fails with a connection or timeout error, the
call returns the empty result after sleeping 2 ^ a seconds between
consecutive attempts (and not after the last one). -/
theorem retryLoop_all_conn {α : Type} (o : Nat → Attempt α) (n : Nat)
    (hconn : ∀ i, i < n → o i = Attempt.connError) :
    ∀ fuel a, 0 < fuel → a + fuel = n →
      retryLoop o n a fuel =
        ⟨RetryResult.emptyResult, (List.range (fuel - 1)).map (fun j => 2 ^ (a + j)),
         none, fuel⟩ := by
  intro fuel
  induction fuel with
  | zero => intro a h; omega
  | succ f ih =>
    intro a _ hsum
    have ho : o a = Attempt.connError := hconn a (by omega)
    by_cases hl : a = n - 1
    · have hf0 : f = 0 := by omega
      subst hf0
      subst hl
      simp [retryLoop, ho]
    · have hf : 0 < f := by omega
      obtain ⟨g, hg⟩ : ∃ g, f = g + 1 := ⟨f - 1, by omega⟩
      subst hg
      have hr := ih (a + 1) hf (by omega)
      have hcomp : ((fun j => 2 ^ (a + j)) ∘ Nat.succ) = (fun j => 2 ^ (a + 1 + j)) := by
        funext j
        simp only [Function.comp]
        congr 1
        omega
      have hrange : (List.range (g + 1)).map (fun j => 2 ^ (a + j)) =
          2 ^ a :: (List.range g).map (fun j => 2 ^ (a + 1 + j)) := by
        rw [List.range_succ_eq_map, List.map_cons, List.map_map, hcomp]
        simp
      have hstep : retryLoop o n a (g + 1 + 1) =
          ⟨(retryLoop o n (a + 1) (g + 1)).result,
           2 ^ a :: (retryLoop o n (a + 1) (g + 1)).sleeps,
           (retryLoop o n (a + 1) (g + 1)).errorLog,
           (retryLoop o n (a + 1) (g + 1)).attempts + 1⟩ := by
        simp [retryLoop, ho, hl]
      rw [hstep, hr]
      simp only [Nat.add_sub_cancel]
      rw [hrange]

/-- C2: behaviour of request_with_retry at every attempt index a <
max_retries.  On HTTP 200/201 it returns the parsed value immediately;
on another HTTP status it retries without sleeping and, on the final
attempt, logs the body truncated to 200 characters and returns the
empty result; on a connection or timeout error it returns the empty
result on the final attempt and otherwise sleeps 2 ^ a seconds before
the next attempt (so an all-failing call sleeps 1s, 2s, 4s, ...); on
any other error it returns the empty result immediately; and with at
least one attempt the call never falls through without a return value
(nothing is raised to the caller). -/
theorem transport_retry_policy {α : Type} (o : Nat → Attempt α) (n a : Nat)
    (ha : a < n) :
    (∀ s b v, o a = Attempt.http s b v → (s = 200 ∨ s = 201) →
      retryFrom o n a = ⟨RetryResult.success v, [], none, 1⟩) ∧
    (∀ s b v, o a = Attempt.http s b v → ¬(s = 200 ∨ s = 201) →
      (a = n - 1 →
        retryFrom o n a = ⟨RetryResult.emptyResult, [], some (pyTake 200 b), 1⟩) ∧
      (a ≠ n - 1 →
        retryFrom o n a =
          ⟨(retryFrom o n (a + 1)).result, (retryFrom o n (a + 1)).sleeps,
           (retryFrom o n (a + 1)).errorLog, (retryFrom o n (a + 1)).attempts + 1⟩)) ∧
    (o a = Attempt.connError →
      (a = n - 1 → retryFrom o n a = ⟨RetryResult.emptyResult, [], none, 1⟩) ∧
      (a ≠ n - 1 →
        retryFrom o n a =
          ⟨(retryFrom o n (a + 1)).result, 2 ^ a :: (retryFrom o n (a + 1)).sleeps,
           (retryFrom o n (a + 1)).errorLog, (retryFrom o n (a + 1)).attempts + 1⟩)) ∧
    (o a = Attempt.otherError →
      retryFrom o n a = ⟨RetryResult.emptyResult, [], none, 1⟩) ∧
    ((∀ i, i < n → o i = Attempt.connError) →
      request_with_retry o n =
        ⟨RetryResult.emptyResult, (List.range (n - 1)).map (fun j => 2 ^ j), none, n⟩) ∧
    ((request_with_retry o n).result ≠ RetryResult.noReturn) := by
  have hfuel : retryFrom o n a = retryLoop o n a ((n - (a + 1)) + 1) :=
    retryFrom_succ_fuel o n a ha
  have hfrom : ∀ b, retryFrom o n b = retryLoop o n b (n - b) := fun b => rfl
  refine ⟨?_, ?_, ?_, ?_, ?_, ?_⟩
  · intro s b v ho hs
    rw [hfuel]
    simp [retryLoop, ho, hs]
  · intro s b v ho hs
    constructor
    · intro hl
      subst hl
      rw [retryFrom_succ_fuel o n (n - 1) ha]
      simp [retryLoop, ho, hs]
    · intro hl
      rw [hfuel, hfrom (a + 1)]
      simp [retryLoop, ho, hs, hl]
  · intro ho
    constructor
    · intro hl
      subst hl
      rw [retryFrom_succ_fuel o n (n - 1) ha]
      simp [retryLoop, ho]
    · intro hl
      rw [hfuel, hfrom (a + 1)]
      simp [retryLoop, ho, hl]
  · intro ho
    rw [hfuel]
    simp [retryLoop, ho]
  · intro hconn
    have h := retryLoop_all_conn o n hconn n 0 (by omega) (by omega)
    unfold request_with_retry
    rw [h]
    simp
  · exact retryLoop_ne_noReturn o n n 0 (by omega) (by omega)

/-- C2 witness: with three attempts all failing on connection errors the
call returns the empty result after sleeping 1s then 2s; with an
immediate HTTP 200 it returns the parsed value with no sleep. -/
theorem transport_retry_policy_witness :
    request_with_retry (fun _ => Attempt.connError (α := Nat)) 3 =
      ⟨RetryResult.emptyResult, [1, 2], none, 3⟩ ∧
    retryFrom (fun _ => Attempt.http 200 "ok" (42 : Nat)) 3 0 =
      ⟨RetryResult.success 42, [], none, 1⟩ :=
  ⟨((transport_retry_policy (fun _ => Attempt.connError (α := Nat)) 3 0
      (by decide)).2.2.2.2.1 (fun i _ => rfl)).trans (by decide),
   (transport_retry_policy (fun _ => Attempt.http 200 "ok" (42 : Nat)) 3 0
      (by decide)).1 200 "ok" 42 rfl (Or.inl rfl)⟩

/-- C6 counterexample: with parent path a/b and friendly URL /c/, the
record path produced by the code is a/b/c/ (the trailing slash of the
friendly URL is kept in the path), not a/b/c as claimed. -/
theorem path_construction_cex :
    ¬ ((Page.from_json ⟨some 1, some "/c/", some "Title", some 0⟩ "a/b" false
        "https://example.com").path = "a/b/c") := by
  decide

/-- C6 (amended): with parent path a/b and friendly URL /c/, the record
path is a/b/c/ (leading slash dropped, segments slash-joined, the
trailing slash of the friendly URL kept), and against the base URL
https://example.com the absolute URL is https://example.com/a/b/c,
which has no trailing slash. -/
theorem path_construction (lid pid : Option Int) (nm : Option String) (priv : Bool) :
    (Page.from_json ⟨lid, some "/c/", nm, pid⟩ "a/b" priv
        "https://example.com").path = "a/b/c/" ∧
    (Page.from_json ⟨lid, some "/c/", nm, pid⟩ "a/b" priv
        "https://example.com").url = "https://example.com/a/b/c" ∧
    pyEndsWithChar '/' ((Page.from_json ⟨lid, some "/c/", nm, pid⟩ "a/b" priv
        "https://example.com").url) = false := by
  have hp : (Page.from_json ⟨lid, some "/c/", nm, pid⟩ "a/b" priv
      "https://example.com").path = fullPath "a/b" "/c/" := by
    simp [Page.from_json]
  have hu : (Page.from_json ⟨lid, some "/c/", nm, pid⟩ "a/b" priv
      "https://example.com").url =
      stripTrailSlash (urljoin "https://example.com" (fullPath "a/b" "/c/")) := by
    simp [Page.from_json]
  refine ⟨?_, ?_, ?_⟩
  · rw [hp]; decide
  · rw [hu]; decide
  · rw [hu]; decide

/-- Removing one trailing slash leaves no trailing slash unless the
string ended in a double slash. -/
theorem stripTrailSlash_no_slash (s : String) (h : endsWithTwoSlash s = false) :
    pyEndsWithChar '/' (stripTrailSlash s) = false := by
  unfold stripTrailSlash
  by_cases he : pyEndsWithChar '/' s = true
  · simp only [he, if_true]
    unfold pyEndsWithChar at he ⊢
    unfold endsWithTwoSlash at h
    simp only [pyDropLast]
    cases h1 : s.data.getLast? with
    | none => rw [h1] at he; simp at he
    | some c1 =>
      rw [h1] at he h
      have hc1 : c1 = '/' := by simpa using he
      subst hc1
      cases h2 : s.data.dropLast.getLast? with
      | none => simp [h2]
      | some c2 =>
        rw [h2] at h
        simp only [decide_eq_true_eq] at h
        have hc2 : ¬ c2 = '/' := by
          intro hx
          subst hx
          simp at h
        simp [h2, hc2]
  · have he2 : pyEndsWithChar '/' s = false := by
      cases hx : pyEndsWithChar '/' s
      · rfl
      · exact absurd hx he
    simp [he2]

/-- C10 counterexample: a layout whose friendly URL is //x// (with
empty parent path and base https://example.com) produces the record
URL https://example.com/x/, which ends with a slash: from_json strips
only one trailing slash. -/
theorem from_json_url_slash_cex :
    pyEndsWithChar '/' ((Page.from_json ⟨none, some "//x//", none, none⟩ "" false
      "https://example.com").url) = true := by
  decide

/-- C10 (amended): Page.from_json totally succeeds on a layout missing
any or all fields, substituting id = 0 without layoutId, an empty title
without name, parent_id = 0 without parentLayoutId, and an empty URL
segment without friendlyURL; its url is the joined absolute URL with at
most one trailing slash removed, hence ends with a slash only when the
joined URL ends with a double slash. -/
theorem from_json_defaults (layout : Layout) (parent_url : String)
    (priv : Bool) (base_url : String) :
    (layout.layoutId = none →
      (Page.from_json layout parent_url priv base_url).id = 0) ∧
    (layout.name = none →
      (Page.from_json layout parent_url priv base_url).title = "") ∧
    (layout.parentLayoutId = none →
      (Page.from_json layout parent_url priv base_url).parent_id = 0) ∧
    (layout.friendlyURL = none →
      (Page.from_json layout parent_url priv base_url).path = fullPath parent_url "") ∧
    ((Page.from_json layout parent_url priv base_url).url =
      stripTrailSlash (urljoin base_url (fullPath parent_url (layout.friendlyURL.getD "")))) ∧
    (endsWithTwoSlash (urljoin base_url (fullPath parent_url (layout.friendlyURL.getD ""))) = false →
      pyEndsWithChar '/' ((Page.from_json layout parent_url priv base_url).url) = false) := by
  refine ⟨?_, ?_, ?_, ?_, rfl, ?_⟩
  · intro h; simp [Page.from_json, h]
  · intro h; simp [Page.from_json, h]
  · intro h; simp [Page.from_json, h]
  · intro h; simp [Page.from_json, h]
  · intro h
    exact stripTrailSlash_no_slash _ h

/-- C10 witness: the wholly empty layout dictionary with empty parent
path against base https://example.com yields id 0, empty title,
parent_id 0, path equal to the empty segment, and a URL with no
trailing slash. -/
theorem from_json_defaults_witness :
    (Page.from_json ⟨none, none, none, none⟩ "" false "https://example.com").id = 0 ∧
    (Page.from_json ⟨none, none, none, none⟩ "" false "https://example.com").title = "" ∧
    (Page.from_json ⟨none, none, none, none⟩ "" false "https://example.com").parent_id = 0 ∧
    (Page.from_json ⟨none, none, none, none⟩ "" false "https://example.com").path = fullPath "" "" ∧
    pyEndsWithChar '/'
      ((Page.from_json ⟨none, none, none, none⟩ "" false "https://example.com").url) = false := by
  have h := from_json_defaults ⟨none, none, none, none⟩ "" false "https://example.com"
  exact ⟨h.1 rfl, h.2.1 rfl, h.2.2.1 rfl, h.2.2.2.1 rfl, h.2.2.2.2.2 (by decide)⟩

/-- C8 counterexample: three records with URLs https://e/x. and twice
https://e/x/ export as the lines [https://e/x., https://e/x,
https://e/x]: the output keeps duplicates and, because stripping
happens after sorting, is not even in nondecreasing order. -/
theorem txt_export_cex :
    txtExportLines
      [⟨1, "p1", "https://e/x.", "t", 0, false⟩,
       ⟨2, "p2", "https://e/x/", "t", 0, false⟩,
       ⟨3, "p3", "https://e/x/", "t", 0, false⟩] =
      ["https://e/x.", "https://e/x", "https://e/x"] ∧
    ¬ (["https://e/x.", "https://e/x", "https://e/x"] : List String).Nodup ∧
    ¬ List.Pairwise PyLe ["https://e/x.", "https://e/x", "https://e/x"] := by
  refine ⟨by decide, by decide, ?_⟩
  intro hp
  rw [List.pairwise_cons] at hp
  have h := hp.1 "https://e/x" (by simp)
  exact absurd h (by decide)

/-- C8 (amended): the export writes one line per record, the lines
being the record URLs arranged in nondecreasing Python string order of
the original URL strings, each with one trailing slash stripped;
duplicate URLs are kept, one per line. -/
theorem txt_export_sorted (pages : List Page) :
    ∃ u : List String, u.Perm (pages.map Page.url) ∧
      List.Pairwise PyLe u ∧
      txtExportLines pages = u.map stripTrailSlash := by
  refine ⟨List.insertionSort PyLe (pages.map Page.url),
    List.perm_insertionSort PyLe _, ?_, rfl⟩
  exact List.sorted_insertionSort PyLe (pages.map Page.url)

/-- C7: saving a crawl state and reloading it yields the saved value:
the page-record list is structurally identical to the original, and
converting the persisted visited list back with
convert_processed_layouts yields exactly the original visited set
(membership agrees even though the persisted list order is arbitrary);
statistics and site tree are also returned unchanged. -/
theorem checkpoint_round_trip (τ : Type) (pages : List Page)
    (visited : Finset String) (st : Stats) (site : τ) :
    load_state τ (save_state τ pages visited st site) =
      some (save_state τ pages visited st site) ∧
    (save_state τ pages visited st site).all_pages = pages ∧
    convert_processed_layouts ((save_state τ pages visited st site).processed_layouts) =
      visited ∧
    (save_state τ pages visited st site).stats = st ∧
    (save_state τ pages visited st site).site_structure = site := by
  refine ⟨rfl, rfl, ?_, rfl, rfl⟩
  exact Finset.sort_toFinset PyLe visited

theorem get_layouts_visited_eq (τ : Type) (cfg : Config) (s : ExtractorState τ)
    (p : Int) (b : Bool) (now : ℚ) (o : Nat → Attempt (List Layout))
    (h : layoutKey p b ∈ s.processed_layouts) :
    get_layouts τ cfg s p b now o = (some [], s, ⟨0, 0⟩) := by
  unfold get_layouts
  simp [h]

theorem get_layouts_mem_after (τ : Type) (cfg : Config) (s : ExtractorState τ)
    (p : Int) (b : Bool) (now : ℚ) (o : Nat → Attempt (List Layout)) :
    layoutKey p b ∈ (get_layouts τ cfg s p b now o).2.1.processed_layouts := by
  unfold get_layouts
  by_cases h : layoutKey p b ∈ s.processed_layouts
  · simp [h]
  · simp [h]

theorem get_layouts_mono (τ : Type) (cfg : Config) (s : ExtractorState τ)
    (p : Int) (b : Bool) (now : ℚ) (o : Nat → Attempt (List Layout))
    (k : String) (h : k ∈ s.processed_layouts) :
    k ∈ (get_layouts τ cfg s p b now o).2.1.processed_layouts := by
  unfold get_layouts
  by_cases hv : layoutKey p b ∈ s.processed_layouts
  · simp [hv, h]
  · simp [hv, Finset.mem_insert, h]

theorem get_layouts_transport_le_one (τ : Type) (cfg : Config)
    (s : ExtractorState τ) (p : Int) (b : Bool) (now : ℚ)
    (o : Nat → Attempt (List Layout)) :
    (get_layouts τ cfg s p b now o).2.2.transportRequests ≤ 1 := by
  unfold get_layouts
  by_cases hv : layoutKey p b ∈ s.processed_layouts
  · simp [hv]
  · simp only [hv, if_false]
    exact get_or_fetch_calls_le_one s.cache now
      (layoutCacheKey cfg p b) (retryValue (request_with_retry o 3).result)

theorem transportFor_cons (k : String) (e : String × Nat) (l : List (String × Nat)) :
    transportFor k (e :: l) = (if e.1 = k then e.2 else 0) + transportFor k l := by
  by_cases h : e.1 = k <;> simp [transportFor, h]

theorem runCalls_transportFor_of_mem (τ : Type) (cfg : Config)
    (calls : List CallSpec) :
    ∀ (s : ExtractorState τ) (k : String), k ∈ s.processed_layouts →
      transportFor k (runCalls τ cfg s calls).2 = 0 := by
  induction calls with
  | nil => intro s k _; simp [runCalls, transportFor]
  | cons c rest ih =>
    intro s k h
    unfold runCalls
    rw [transportFor_cons]
    by_cases hk : layoutKey c.parent_layout_id c.is_private = k
    · have hv : layoutKey c.parent_layout_id c.is_private ∈ s.processed_layouts := by
        rw [hk]; exact h
      rw [get_layouts_visited_eq τ cfg s c.parent_layout_id c.is_private c.now
        c.outcomes hv]
      simp only [hk, if_true]
      rw [ih s k h]
    · simp only [hk, if_false, Nat.zero_add]
      exact ih _ k (get_layouts_mono τ cfg s c.parent_layout_id c.is_private
        c.now c.outcomes k h)

theorem runCalls_transportFor_le_one (τ : Type) (cfg : Config)
    (calls : List CallSpec) :
    ∀ (s : ExtractorState τ) (k : String),
      transportFor k (runCalls τ cfg s calls).2 ≤ 1 := by
  induction calls with
  | nil => intro s k; simp [runCalls, transportFor]
  | cons c rest ih =>
    intro s k
    unfold runCalls
    rw [transportFor_cons]
    by_cases hk : layoutKey c.parent_layout_id c.is_private = k
    · by_cases hv : layoutKey c.parent_layout_id c.is_private ∈ s.processed_layouts
      · rw [get_layouts_visited_eq τ cfg s c.parent_layout_id c.is_private c.now
          c.outcomes hv]
        simp only [hk, if_true]
        have h0 := runCalls_transportFor_of_mem τ cfg rest s k (hk ▸ hv)
        omega
      · have h1 := get_layouts_transport_le_one τ cfg s c.parent_layout_id
          c.is_private c.now c.outcomes
        have h2 : k ∈ (get_layouts τ cfg s c.parent_layout_id c.is_private c.now
            c.outcomes).2.1.processed_layouts :=
          hk ▸ get_layouts_mem_after τ cfg s c.parent_layout_id c.is_private
            c.now c.outcomes
        have h3 := runCalls_transportFor_of_mem τ cfg rest _ k h2
        rw [h3]
        simp only [hk, if_true]
        omega
    · simp only [hk, if_false, Nat.zero_add]
      exact ih _ k

/-- C1: over any sequence of get_layouts invocations from any starting
state, at most one transport fetch is ever issued for a given traversal
key (the guard inserts the key into the visited set atomically before
any fetch is decided, so a later call on the same key finds it visited);
a call whose key is already in the visited set returns the empty
list immediately with no cache lookup and no transport request; and
after any call its key is in the visited set. -/
theorem traversal_dedup (τ : Type) (cfg : Config) (s : ExtractorState τ)
    (calls : List CallSpec) (p : Int) (b : Bool) (now : ℚ)
    (o : Nat → Attempt (List Layout)) :
    transportFor (layoutKey p b) (runCalls τ cfg s calls).2 ≤ 1 ∧
    (layoutKey p b ∈ s.processed_layouts →
      get_layouts τ cfg s p b now o = (some [], s, ⟨0, 0⟩)) ∧
    layoutKey p b ∈ (get_layouts τ cfg s p b now o).2.1.processed_layouts :=
  ⟨runCalls_transportFor_le_one τ cfg calls s (layoutKey p b),
   fun h => get_layouts_visited_eq τ cfg s p b now o h,
   get_layouts_mem_after τ cfg s p b now o⟩

/-- C1 witness: with the key 7-True already visited, a call on
parent 7, private True returns the empty list and changes nothing, and
an empty run issues no fetch for it. -/
theorem traversal_dedup_witness :
    transportFor (layoutKey 7 true) (runCalls Unit ⟨"https://e", "g"⟩ c1State []).2 ≤ 1 ∧
    get_layouts Unit ⟨"https://e", "g"⟩ c1State 7 true 0 (fun _ => Attempt.connError) =
      (some [], c1State, ⟨0, 0⟩) ∧
    layoutKey 7 true ∈ (get_layouts Unit ⟨"https://e", "g"⟩ c1State 7 true 0
      (fun _ => Attempt.connError)).2.1.processed_layouts := by
  have h := traversal_dedup Unit ⟨"https://e", "g"⟩ c1State [] 7 true 0
    (fun _ => Attempt.connError)
  exact ⟨h.1, h.2.1 (by decide), h.2.2⟩

/-- C9: a get_layouts call whose traversal key is already in the
visited set returns the empty list and performs no cache lookup and no
transport request; the whole state — every statistics counter, the
cache, the record list, the site tree and the visited set — is left
unchanged. -/
theorem get_layouts_visited_frame (τ : Type) (cfg : Config)
    (s : ExtractorState τ) (p : Int) (b : Bool) (now : ℚ)
    (o : Nat → Attempt (List Layout))
    (h : layoutKey p b ∈ s.processed_layouts) :
    (get_layouts τ cfg s p b now o).1 = some [] ∧
    (get_layouts τ cfg s p b now o).2.1 = s ∧
    (get_layouts τ cfg s p b now o).2.2.cacheLookups = 0 ∧
    (get_layouts τ cfg s p b now o).2.2.transportRequests = 0 ∧
    (get_layouts τ cfg s p b now o).2.1.stats = s.stats ∧
    (get_layouts τ cfg s p b now o).2.1.cache = s.cache ∧
    (get_layouts τ cfg s p b now o).2.1.all_pages = s.all_pages ∧
    (get_layouts τ cfg s p b now o).2.1.site_structure = s.site_structure ∧
    (get_layouts τ cfg s p b now o).2.1.processed_layouts = s.processed_layouts := by
  have he := get_layouts_visited_eq τ cfg s p b now o h
  rw [he]
  exact ⟨rfl, rfl, rfl, rfl, rfl, rfl, rfl, rfl, rfl⟩

/-- C9 witness: the frame theorem instantiated at a concrete state that
has already visited the root public key. -/
theorem get_layouts_visited_frame_witness :
    (get_layouts Unit ⟨"https://e", "g"⟩ c9State 0 false 0
      (fun _ => Attempt.otherError)).1 = some [] ∧
    (get_layouts Unit ⟨"https://e", "g"⟩ c9State 0 false 0
      (fun _ => Attempt.otherError)).2.1 = c9State ∧
    (get_layouts Unit ⟨"https://e", "g"⟩ c9State 0 false 0
      (fun _ => Attempt.otherError)).2.2.cacheLookups = 0 ∧
    (get_layouts Unit ⟨"https://e", "g"⟩ c9State 0 false 0
      (fun _ => Attempt.otherError)).2.2.transportRequests = 0 ∧
    (get_layouts Unit ⟨"https://e", "g"⟩ c9State 0 false 0
      (fun _ => Attempt.otherError)).2.1.stats = c9State.stats := by
  have h := get_layouts_visited_frame Unit ⟨"https://e", "g"⟩ c9State 0 false 0
    (fun _ => Attempt.otherError) (by decide)
  exact ⟨h.1, h.2.1, h.2.2.1, h.2.2.2.1, h.2.2.2.2.1⟩

/-- C3 at the failing input: a fetch whose request fails twice and
succeeds on the 3rd attempt (max_retries = 3) does return the success
value, and the transport makes 3 attempts sleeping 1s then 2s — but the
statistics record 0 retries and 0 request errors (nothing in the code
ever increments them), and requests_made counts 1 (one fetch_layouts
call), not one per attempt. -/
theorem retry_stats_not_recorded :
    (get_layouts Unit ⟨"https://e", "g"⟩ c3State 0 false 0 c3Outcomes).1 =
      some [⟨some 5, some "/x", some "X", some 0⟩] ∧
    (request_with_retry c3Outcomes 3).result =
      RetryResult.success [⟨some 5, some "/x", some "X", some 0⟩] ∧
    (request_with_retry c3Outcomes 3).attempts = 3 ∧
    (request_with_retry c3Outcomes 3).sleeps = [1, 2] ∧
    (get_layouts Unit ⟨"https://e", "g"⟩ c3State 0 false 0 c3Outcomes).2.1.stats.retries = 0 ∧
    (get_layouts Unit ⟨"https://e", "g"⟩ c3State 0 false 0 c3Outcomes).2.1.stats.request_errors = 0 ∧
    (get_layouts Unit ⟨"https://e", "g"⟩ c3State 0 false 0 c3Outcomes).2.1.stats.requests_made = 1 := by
  decide
